import Mathlib

/-! # kilo.c: raw-mode terminal controller and input loop

A shallow embedding of `src/kilo.c`.  The operating system is an explicit
environment (`Env`) that answers every `tcgetattr`, `tcsetattr` and `read`
call; the process is a `World` threaded through the C functions.  `exit` is a
non-local jump, so every function returns a `Flow`: either the next world or
the status handed to `exit`.
-/

namespace Kilo

/-! ## Names supplied by the system headers -/

/-- Values of the names `kilo.c` takes from `termios.h` and `errno.h`.  The
headers are not part of the repository, so the values are a parameter. -/
structure Platform where
  /-- width in bits of `tcflag_t` -/
  tcflagBits : Nat
  /-- length of the `c_cc` array -/
  NCCS : Nat
  IXON : Nat
  ICRNL : Nat
  BRKINT : Nat
  ISTRIP : Nat
  INPCK : Nat
  OPOST : Nat
  ECHO : Nat
  ICANON : Nat
  ISIG : Nat
  IEXTEN : Nat
  CS8 : Nat
  /-- mask of the character-size field of `c_cflag` -/
  CSIZE : Nat
  VMIN : Nat
  VTIME : Nat
  EAGAIN : Nat

/-- The header values on Linux (glibc, asm-generic `termbits.h`). -/
def linux : Platform where
  tcflagBits := 32
  NCCS := 32
  IXON := 0o2000
  ICRNL := 0o400
  BRKINT := 0o2
  ISTRIP := 0o40
  INPCK := 0o20
  OPOST := 0o1
  ECHO := 0o10
  ICANON := 0o2
  ISIG := 0o1
  IEXTEN := 0o100000
  CS8 := 0o60
  CSIZE := 0o60
  VMIN := 6
  VTIME := 5
  EAGAIN := 11

/-- What the headers guarantee about the names used here: `VMIN` and `VTIME`
are two different slots of `c_cc`, and `CS8` is the all-ones value of the
character-size field `CSIZE`. -/
def Platform.Sane (K : Platform) : Prop :=
  K.VMIN < K.NCCS ∧ K.VTIME < K.NCCS ∧ K.VMIN ≠ K.VTIME ∧ K.CSIZE = K.CS8

instance (K : Platform) : Decidable K.Sane := by
  unfold Platform.Sane; infer_instance

/-! ## Data model -/

/-- The record `struct termios`. -/
structure Termios where
  c_iflag : Nat
  c_oflag : Nat
  c_cflag : Nat
  c_lflag : Nat
  c_line : Nat
  c_cc : List Nat
  c_ispeed : Nat
  c_ospeed : Nat
deriving DecidableEq, Repr

/-- Functions that can be registered with `atexit`. -/
inductive Handler where
  | disableRawMode
deriving DecidableEq, Repr

/-- Process and device state. -/
structure World where
  /-- attribute set currently held by the terminal device on standard input -/
  device : Termios
  /-- the global `struct termios orig_attr` -/
  orig_attr : Termios
  /-- the global `errno` -/
  errno : Nat
  /-- the byte slot `char c` of the loop body -/
  c : Int
  /-- functions registered with `atexit`, most recent first -/
  atexitFns : List Handler
  /-- standard output, one entry per `printf` call -/
  out : List String
  /-- standard error, one entry per `perror` call: the message and `errno` -/
  err : List (String × Nat)
  /-- number of `read` calls made so far -/
  reads : Nat
  /-- number of `tcsetattr` calls made so far -/
  sets : Nat
deriving DecidableEq, Repr

/-- Outcome of one `read(STDIN_FILENO, &c, 1)`. -/
inductive ReadResult where
  /-- returns 1 and stores the byte -/
  | byte (b : Nat)
  /-- returns 0: timeout or end of file -/
  | zero
  /-- returns -1 and sets `errno` -/
  | fail (e : Nat)
deriving DecidableEq, Repr

/-- The operating system as seen by the process. -/
structure Env where
  /-- `none`: `tcgetattr` succeeds; `some e`: it returns -1 with `errno = e` -/
  tcgetattrErr : Option Nat
  /-- the same for the `k`-th call of `tcsetattr` -/
  tcsetattrErr : Nat → Option Nat
  /-- outcome of the `i`-th call of `read` -/
  readAt : Nat → ReadResult

/-- Result of a C function that may call `exit`. -/
inductive Flow where
  | next (w : World)
  | exit (status : Nat) (w : World)
deriving DecidableEq, Repr

/-! ## Terminal -/

/-- `perror(s); exit(1);`: the status handed to `exit` and the world in which
it is called. -/
def die (s : String) (w : World) : Nat × World :=
  (1, { w with err := w.err ++ [(s, w.errno)] })

/-- `tcgetattr(STDIN_FILENO, &a)`: the device attributes on success. -/
def tcgetattr (E : Env) (w : World) : Option Termios × World :=
  match E.tcgetattrErr with
  | none => (some w.device, w)
  | some e => (none, { w with errno := e })

/-- `tcsetattr(STDIN_FILENO, TCSAFLUSH, &a)`: `true` when it did not
return -1, and then the device holds `a`. -/
def tcsetattr (E : Env) (a : Termios) (w : World) : Bool × World :=
  match E.tcsetattrErr w.sets with
  | none => (true, { w with device := a, sets := w.sets + 1 })
  | some e => (false, { w with errno := e, sets := w.sets + 1 })

/-- `void disableRawMode(void)` -/
def disableRawMode (E : Env) (w : World) : Flow :=
  match tcsetattr E w.orig_attr w with
  | (false, w) => Function.uncurry Flow.exit (die "tcsetattr() failed" w)
  | (true, w) => .next w

/-- The operand `~(m)` of `&=` on a `tcflag_t` of `bits` bits: the
complement of the `int` mask `m` converted to the unsigned type. -/
def maskOff (bits m : Nat) : Nat := 2 ^ bits - 1 - m % 2 ^ bits

/-- Lines 37 to 65 of `enableRawMode`: the local `raw_attr` computed from
`orig_attr`. -/
def raw_attr (K : Platform) (orig_attr : Termios) : Termios :=
  let t := orig_attr
  let t := { t with c_iflag := (t.c_iflag &&&
    maskOff K.tcflagBits (K.IXON ||| K.ICRNL ||| K.BRKINT ||| K.ISTRIP ||| K.INPCK)) }
  let t := { t with c_oflag := t.c_oflag &&& maskOff K.tcflagBits K.OPOST }
  let t := { t with c_lflag := (t.c_lflag &&&
    maskOff K.tcflagBits (K.ECHO ||| K.ICANON ||| K.ISIG ||| K.IEXTEN)) }
  let t := { t with c_cflag := t.c_cflag ||| K.CS8 }
  let t := { t with c_cc := t.c_cc.set K.VMIN 0 }
  let t := { t with c_cc := t.c_cc.set K.VTIME 1 }
  t

/-- `void enableRawMode(void)` -/
def enableRawMode (K : Platform) (E : Env) (w : World) : Flow :=
  match tcgetattr E w with
  | (none, w) => Function.uncurry Flow.exit (die "tcgetattr() failed" w)
  | (some a, w) =>
    let w := { w with orig_attr := a }
    match tcsetattr E (raw_attr K w.orig_attr) w with
    | (false, w) => Function.uncurry Flow.exit (die "tcsetattr() failed in enable()" w)
    | (true, w) => .next w

/-! ## Input loop and `main` -/

/-- `int iscntrl(int)` of `ctype.h` in the "C" locale: the codes 0 to 31
and 127. -/
def iscntrl (c : Int) : Bool := (0 ≤ c && c < 32) || c == 127

/-- The characters `printf` writes for a format string with the conversions
`%d` and `%c` and `int` arguments. -/
def format : List Char → List Int → List Char
  | '%' :: 'd' :: fmt, a :: args => (toString a).toList ++ format fmt args
  | '%' :: 'c' :: fmt, a :: args => Char.ofNat (a % 256).toNat :: format fmt args
  | ch :: fmt, args => ch :: format fmt args
  | [], _ => []

/-- `printf(fmt, args...)` on standard output. -/
def printf (fmt : String) (args : List Int) (w : World) : World :=
  { w with out := w.out ++ [String.mk (format fmt.toList args)] }

/-- Value of a `char` holding the byte `b` (plain `char` signed, as with gcc
on x86; for the ASCII range the signedness makes no difference). -/
def toChar (b : Nat) : Int :=
  if b % 256 < 128 then (b % 256 : Nat) else ((b % 256 : Nat) : Int) - 256

/-- `read(STDIN_FILENO, &c, 1)`: the return value; a delivered byte is stored
in `c`. -/
def read (E : Env) (w : World) : Int × World :=
  match E.readAt w.reads with
  | .byte b => (1, { w with c := toChar b, reads := w.reads + 1 })
  | .zero => (0, { w with reads := w.reads + 1 })
  | .fail e => (-1, { w with errno := e, reads := w.reads + 1 })

/-- How one pass through the body of `while (1)` ends. -/
inductive Iter where
  /-- reached the end of the body: the loop goes round again -/
  | again (w : World)
  /-- `break` -/
  | brk (w : World)
  /-- `exit(status)` was called -/
  | exit (status : Nat) (w : World)
deriving DecidableEq, Repr

/-- The body of `while (1)` in `main`, lines 83 to 103. -/
def loopBody (K : Platform) (E : Env) (w : World) : Iter :=
  let w := { w with c := 0 }
  match read E w with
  | (n, w) =>
    if n = -1 ∧ w.errno ≠ K.EAGAIN then
      Function.uncurry Iter.exit (die "read() failed" w)
    else
      let w := if iscntrl w.c then printf "%d\r\n" [w.c] w
               else printf "%d ('%c')\r\n" [w.c, w.c] w
      if w.c = ('q').toNat then .brk w else .again w

/-- How the loop stands after at most `fuel` passes. -/
inductive LoopEnd where
  /-- still looping after `fuel` passes -/
  | running (w : World)
  /-- left by `break` -/
  | broke (w : World)
  /-- `exit(status)` was called -/
  | exit (status : Nat) (w : World)
deriving DecidableEq, Repr

/-- The loop `while (1) { ... }` of `main`, run for at most `fuel` passes. -/
def whileLoop (K : Platform) (E : Env) : Nat → World → LoopEnd
  | 0, w => .running w
  | fuel + 1, w =>
    match loopBody K E w with
    | .again w => whileLoop K E fuel w
    | .brk w => .broke w
    | .exit s w => .exit s w

/-- `atexit(f)` -/
def atexit (f : Handler) (w : World) : World :=
  { w with atexitFns := f :: w.atexitFns }

/-- How `main` stands after at most `fuel` passes of its loop. -/
inductive MainEnd where
  /-- still inside the loop -/
  | running (w : World)
  /-- `exit(status)` was called, or `main` returned `status` -/
  | exit (status : Nat) (w : World)
deriving DecidableEq, Repr

/-- `int main(void)` -/
def main (K : Platform) (E : Env) (fuel : Nat) (w : World) : MainEnd :=
  match enableRawMode K E w with
  | .exit s w => .exit s w
  | .next w =>
    match whileLoop K E fuel w with
    | .running w => .running w
    | .exit s w => .exit s w
    | .broke w =>
      let w := atexit .disableRawMode w
      .exit 0 w

/-- The work of `exit(status)`: the registered functions are called, most
recent first.  A function that itself calls `exit` replaces the status and the
remaining functions still run (the C standard leaves a second call of `exit`
undefined; this is what glibc does). -/
def runAtexit (E : Env) : List Handler → Nat → World → Nat × World
  | [], s, w => (s, w)
  | .disableRawMode :: fs, s, w =>
    match disableRawMode E { w with atexitFns := fs } with
    | .next w => runAtexit E fs s w
    | .exit s1 w => runAtexit E fs s1 w

/-- How the process stands after at most `fuel` passes of the loop. -/
inductive Outcome where
  /-- still inside the loop -/
  | running (w : World)
  /-- the process has ended with this exit code -/
  | ended (code : Nat) (w : World)
deriving DecidableEq, Repr

/-- The whole process: `main`, then the work of `exit`. -/
def kilo (K : Platform) (E : Env) (fuel : Nat) (w : World) : Outcome :=
  match main K E fuel w with
  | .running w => .running w
  | .exit s w =>
    match runAtexit E w.atexitFns s w with
    | (code, w) => .ended code w

/-- The world at process start: the terminal holds `dev`, the globals are
zero-initialised, nothing has been read or written. -/
def World.start (dev : Termios) : World where
  device := dev
  orig_attr := ⟨0, 0, 0, 0, 0, [], 0, 0⟩
  errno := 0
  c := 0
  atexitFns := []
  out := []
  err := []
  reads := 0
  sets := 0

/-- The reads that deliver the bytes of `bs`, one per call, and then
`rest`. -/
def delivering (bs : List Nat) (rest : ReadResult) (i : Nat) : ReadResult :=
  match bs.get? i with
  | some b => .byte b
  | none => rest

/-- A terminal in the usual cooked mode on Linux (`stty -a` defaults). -/
def cooked : Termios where
  c_iflag := 0o42400
  c_oflag := 0o5
  c_cflag := 0o277
  c_lflag := 0o105073
  c_line := 0
  c_cc := [3, 28, 127, 21, 4, 0, 1, 0, 17, 19, 26, 0, 18, 15, 23, 22,
           0, 0, 0, 0, 0, 0, 0, 0, 0, 0, 0, 0, 0, 0, 0, 0]
  c_ispeed := 15
  c_ospeed := 15

/-! ## Notions used to state the properties -/

/-- A `struct termios` value as the platform lays it out: every flag word
fits `tcflag_t` and `c_cc` has `NCCS` entries. -/
def Termios.Fits (K : Platform) (t : Termios) : Prop :=
  t.c_iflag < 2 ^ K.tcflagBits ∧ t.c_oflag < 2 ^ K.tcflagBits ∧
  t.c_cflag < 2 ^ K.tcflagBits ∧ t.c_lflag < 2 ^ K.tcflagBits ∧
  t.c_cc.length = K.NCCS

instance (K : Platform) (t : Termios) : Decidable (t.Fits K) := by
  unfold Termios.Fits; infer_instance

/-- The environment in which every call succeeds and the reads are `r`. -/
def Env.allOk (r : Nat → ReadResult) : Env where
  tcgetattrErr := none
  tcsetattrErr := fun _ => none
  readAt := r

/-- The text lines 96 and 97 print when the byte slot holds `c`. -/
def line (c : Int) : String :=
  if iscntrl c then String.mk (format "%d\r\n".toList [c])
  else String.mk (format "%d ('%c')\r\n".toList [c, c])

/-- The value the byte slot holds after a read: the byte delivered, or the
null value it was initialised to. -/
def ReadResult.slot : ReadResult → Int
  | .byte b => toChar b
  | .zero => 0
  | .fail _ => 0

/-- A read after which the loop goes round again: it is not a failure other
than EAGAIN and it does not deliver `q`. -/
def ReadResult.Passes (K : Platform) : ReadResult → Prop
  | .byte b => toChar b ≠ ('q').toNat
  | .zero => True
  | .fail e => e = K.EAGAIN

instance (K : Platform) (r : ReadResult) : Decidable (r.Passes K) := by
  cases r <;> unfold ReadResult.Passes <;> infer_instance

/-- The world after a pass of the body that reached the end of line 97. -/
def passed (E : Env) (w : World) : World :=
  match E.readAt w.reads with
  | .byte b => { w with c := toChar b, reads := w.reads + 1,
                        out := w.out ++ [line (toChar b)] }
  | .zero => { w with c := 0, reads := w.reads + 1, out := w.out ++ [line 0] }
  | .fail e => { w with c := 0, errno := e, reads := w.reads + 1,
                        out := w.out ++ [line 0] }

/-- The lines reported for the reads `s`, `s + 1`, ..., `s + n - 1`. -/
def lines (E : Env) (s n : Nat) : List String :=
  (List.range n).map fun i => line (E.readAt (s + i)).slot

/-- The world `enableRawMode` leaves when both calls succeed. -/
def entered (K : Platform) (w : World) : World :=
  { w with orig_attr := w.device, device := raw_attr K w.device, sets := w.sets + 1 }

/-- The line the specification gives for an ASCII byte `b`: the decimal code
and CR LF for a control byte (below 32, or 127); otherwise the decimal code, a
space, and the character between single quotes in parentheses, then CR LF. -/
def specLine (b : Nat) : String :=
  if b < 32 ∨ b = 127 then String.mk (Nat.toDigits 10 b) ++ "\r\n"
  else String.mk (Nat.toDigits 10 b) ++ " ('" ++ String.singleton (Char.ofNat b) ++ "')\r\n"

/-! ## Bit-level facts about `&= ~(...)` and `|=` -/

theorem testBit_maskOff (bits m i : Nat) :
    (maskOff bits m).testBit i = (decide (i < bits) && !m.testBit i) := by
  have hlt : m % 2 ^ bits < 2 ^ bits := Nat.mod_lt _ (Nat.two_pow_pos bits)
  have hrw : maskOff bits m = 2 ^ bits - (m % 2 ^ bits + 1) := by
    unfold maskOff; omega
  rw [hrw, Nat.testBit_two_pow_sub_succ hlt, Nat.testBit_mod_two_pow]
  by_cases h : i < bits <;> simp [h]

/-- After `x &= ~(m)` every flag `f` contained in `m` is clear. -/
theorem and_maskOff_clear (x bits m f : Nat) (hf : f &&& m = f) :
    (x &&& maskOff bits m) &&& f = 0 := by
  apply Nat.eq_of_testBit_eq
  intro i
  have hfi : (f.testBit i && m.testBit i) = f.testBit i := by
    rw [← Nat.testBit_and, hf]
  rw [Nat.testBit_and, Nat.testBit_and, testBit_maskOff, Nat.zero_testBit]
  cases hx : x.testBit i <;> cases hm : m.testBit i <;> cases hb : f.testBit i <;>
    simp_all

/-- Bits outside `m` survive `x &= ~(m)`. -/
theorem and_maskOff_keep (x bits m i : Nat) (hx : x < 2 ^ bits)
    (hm : m.testBit i = false) :
    (x &&& maskOff bits m).testBit i = x.testBit i := by
  rw [Nat.testBit_and, testBit_maskOff, hm]
  by_cases h : i < bits
  · simp [h]
  · have hle : 2 ^ bits ≤ 2 ^ i := Nat.pow_le_pow_right (by decide) (Nat.le_of_not_lt h)
    have : x.testBit i = false := Nat.testBit_lt_two_pow (Nat.lt_of_lt_of_le hx hle)
    simp [this]

theorem or_and_self (x m : Nat) : (x ||| m) &&& m = m := by
  apply Nat.eq_of_testBit_eq
  intro i
  rw [Nat.testBit_and, Nat.testBit_or]
  cases x.testBit i <;> cases m.testBit i <;> rfl

theorem or_keep (x m i : Nat) (hm : m.testBit i = false) :
    (x ||| m).testBit i = x.testBit i := by
  rw [Nat.testBit_or, hm, Bool.or_false]

theorem and_or_left_self (a b : Nat) : a &&& (a ||| b) = a := by
  apply Nat.eq_of_testBit_eq
  intro i
  rw [Nat.testBit_and, Nat.testBit_or]
  cases a.testBit i <;> cases b.testBit i <;> rfl

theorem and_or_right_self (a b : Nat) : b &&& (a ||| b) = b := by
  apply Nat.eq_of_testBit_eq
  intro i
  rw [Nat.testBit_and, Nat.testBit_or]
  cases a.testBit i <;> cases b.testBit i <;> rfl

/-! ## Entering raw mode -/

/-- When both calls succeed `enableRawMode` returns, having captured the
device attributes in `orig_attr` and applied `raw_attr` of them. -/
theorem enableRawMode_ok (K : Platform) (E : Env) (w : World)
    (hget : E.tcgetattrErr = none) (hset : E.tcsetattrErr w.sets = none) :
    enableRawMode K E w =
      .next { w with orig_attr := w.device, device := raw_attr K w.device,
                     sets := w.sets + 1 } := by
  simp [enableRawMode, tcgetattr, tcsetattr, hget, hset]

theorem and_or_of_and_left (f a b : Nat) (h : f &&& a = f) : f &&& (a ||| b) = f := by
  apply Nat.eq_of_testBit_eq
  intro i
  have hi : (f.testBit i && a.testBit i) = f.testBit i := by
    rw [← Nat.testBit_and, h]
  rw [Nat.testBit_and, Nat.testBit_or]
  cases hf : f.testBit i <;> cases ha : a.testBit i <;> cases hb : b.testBit i <;>
    simp_all

theorem raw_attr_vmin (K : Platform) (t : Termios) (hK : K.Sane)
    (hcc : t.c_cc.length = K.NCCS) : (raw_attr K t).c_cc[K.VMIN]? = some 0 := by
  obtain ⟨h1, _, h3, _⟩ := hK
  simp only [raw_attr]
  rw [List.getElem?_set_ne (Ne.symm h3), List.getElem?_set_self (by omega)]

theorem raw_attr_vtime (K : Platform) (t : Termios) (hK : K.Sane)
    (hcc : t.c_cc.length = K.NCCS) : (raw_attr K t).c_cc[K.VTIME]? = some 1 := by
  obtain ⟨_, h2, _, _⟩ := hK
  simp only [raw_attr]
  rw [List.getElem?_set_self (by rw [List.length_set]; omega)]

/-- C1: when `tcgetattr` and `tcsetattr` both succeed, `enableRawMode`
returns and the attribute set the device then holds has ECHO, ICANON, ISIG and
IEXTEN clear in `c_lflag`, OPOST clear in `c_oflag`, IXON, ICRNL, BRKINT,
ISTRIP and INPCK clear in `c_iflag`, the character-size field of `c_cflag`
equal to CS8, `c_cc[VMIN] = 0` and `c_cc[VTIME] = 1`. -/
theorem enableRawMode_applies_raw_set (K : Platform) (E : Env) (w : World)
    (hK : K.Sane) (hcc : w.device.c_cc.length = K.NCCS)
    (hget : E.tcgetattrErr = none) (hset : E.tcsetattrErr w.sets = none) :
    ∃ w1, enableRawMode K E w = .next w1 ∧
      w1.device.c_lflag &&& K.ECHO = 0 ∧ w1.device.c_lflag &&& K.ICANON = 0 ∧
      w1.device.c_lflag &&& K.ISIG = 0 ∧ w1.device.c_lflag &&& K.IEXTEN = 0 ∧
      w1.device.c_oflag &&& K.OPOST = 0 ∧
      w1.device.c_iflag &&& K.IXON = 0 ∧ w1.device.c_iflag &&& K.ICRNL = 0 ∧
      w1.device.c_iflag &&& K.BRKINT = 0 ∧ w1.device.c_iflag &&& K.ISTRIP = 0 ∧
      w1.device.c_iflag &&& K.INPCK = 0 ∧
      w1.device.c_cflag &&& K.CSIZE = K.CS8 ∧
      w1.device.c_cc[K.VMIN]? = some 0 ∧ w1.device.c_cc[K.VTIME]? = some 1 := by
  refine ⟨_, enableRawMode_ok K E w hget hset, ?_⟩
  have hsize : K.CSIZE = K.CS8 := hK.2.2.2
  refine ⟨?_, ?_, ?_, ?_, ?_, ?_, ?_, ?_, ?_, ?_, ?_,
    raw_attr_vmin K _ hK hcc, raw_attr_vtime K _ hK hcc⟩
  · exact and_maskOff_clear _ _ _ _ (and_or_of_and_left _ _ _
      (and_or_of_and_left _ _ _ (and_or_left_self _ _)))
  · exact and_maskOff_clear _ _ _ _ (and_or_of_and_left _ _ _
      (and_or_of_and_left _ _ _ (and_or_right_self _ _)))
  · exact and_maskOff_clear _ _ _ _ (and_or_of_and_left _ _ _ (and_or_right_self _ _))
  · exact and_maskOff_clear _ _ _ _ (and_or_right_self _ _)
  · exact and_maskOff_clear _ _ _ _ (Nat.and_self _)
  · exact and_maskOff_clear _ _ _ _ (and_or_of_and_left _ _ _ (and_or_of_and_left _ _ _
      (and_or_of_and_left _ _ _ (and_or_left_self _ _))))
  · exact and_maskOff_clear _ _ _ _ (and_or_of_and_left _ _ _ (and_or_of_and_left _ _ _
      (and_or_of_and_left _ _ _ (and_or_right_self _ _))))
  · exact and_maskOff_clear _ _ _ _ (and_or_of_and_left _ _ _
      (and_or_of_and_left _ _ _ (and_or_right_self _ _)))
  · exact and_maskOff_clear _ _ _ _ (and_or_of_and_left _ _ _ (and_or_right_self _ _))
  · exact and_maskOff_clear _ _ _ _ (and_or_right_self _ _)
  · show (w.device.c_cflag ||| K.CS8) &&& K.CSIZE = K.CS8
    rw [hsize]
    exact or_and_self _ _

/-- C1 at a concrete input: a cooked Linux terminal, every call succeeding. -/
theorem enableRawMode_applies_raw_set_witness :
    ∃ w1, enableRawMode linux (Env.allOk fun _ => .zero) (World.start cooked) = .next w1 ∧
      w1.device.c_lflag &&& linux.ECHO = 0 ∧ w1.device.c_lflag &&& linux.ICANON = 0 ∧
      w1.device.c_lflag &&& linux.ISIG = 0 ∧ w1.device.c_lflag &&& linux.IEXTEN = 0 ∧
      w1.device.c_oflag &&& linux.OPOST = 0 ∧
      w1.device.c_iflag &&& linux.IXON = 0 ∧ w1.device.c_iflag &&& linux.ICRNL = 0 ∧
      w1.device.c_iflag &&& linux.BRKINT = 0 ∧ w1.device.c_iflag &&& linux.ISTRIP = 0 ∧
      w1.device.c_iflag &&& linux.INPCK = 0 ∧
      w1.device.c_cflag &&& linux.CSIZE = linux.CS8 ∧
      w1.device.c_cc[linux.VMIN]? = some 0 ∧ w1.device.c_cc[linux.VTIME]? = some 1 :=
  enableRawMode_applies_raw_set linux (Env.allOk fun _ => .zero) (World.start cooked)
    (by decide) (by decide) rfl rfl

/-- C10: the working set `enableRawMode` computes and applies differs from the
captured original only in the named places: the bits of `c_iflag` outside
IXON|ICRNL|BRKINT|ISTRIP|INPCK, of `c_oflag` outside OPOST, of `c_lflag`
outside ECHO|ICANON|ISIG|IEXTEN and of `c_cflag` outside CS8, every `c_cc`
entry other than VMIN and VTIME, and the speeds are those of the original; and
`orig_attr` still holds the captured set after the computation. -/
theorem enableRawMode_changes_only_named_places (K : Platform) (E : Env) (w : World)
    (hfit : w.device.Fits K)
    (hget : E.tcgetattrErr = none) (hset : E.tcsetattrErr w.sets = none) :
    ∃ w1, enableRawMode K E w = .next w1 ∧
      w1.orig_attr = w.device ∧ w1.device = raw_attr K w1.orig_attr ∧
      (∀ i, (K.IXON ||| K.ICRNL ||| K.BRKINT ||| K.ISTRIP ||| K.INPCK).testBit i = false →
        w1.device.c_iflag.testBit i = w1.orig_attr.c_iflag.testBit i) ∧
      (∀ i, K.OPOST.testBit i = false →
        w1.device.c_oflag.testBit i = w1.orig_attr.c_oflag.testBit i) ∧
      (∀ i, (K.ECHO ||| K.ICANON ||| K.ISIG ||| K.IEXTEN).testBit i = false →
        w1.device.c_lflag.testBit i = w1.orig_attr.c_lflag.testBit i) ∧
      (∀ i, K.CS8.testBit i = false →
        w1.device.c_cflag.testBit i = w1.orig_attr.c_cflag.testBit i) ∧
      (∀ j, j ≠ K.VMIN → j ≠ K.VTIME → w1.device.c_cc[j]? = w1.orig_attr.c_cc[j]?) ∧
      w1.device.c_cc.length = w1.orig_attr.c_cc.length ∧
      w1.device.c_ispeed = w1.orig_attr.c_ispeed ∧
      w1.device.c_ospeed = w1.orig_attr.c_ospeed ∧
      w1.device.c_line = w1.orig_attr.c_line := by
  obtain ⟨hi, ho, _, hl, _⟩ := hfit
  refine ⟨_, enableRawMode_ok K E w hget hset, rfl, rfl, ?_, ?_, ?_, ?_, ?_, ?_, rfl, rfl, rfl⟩
  · intro i hm
    exact and_maskOff_keep _ _ _ _ hi hm
  · intro i hm
    exact and_maskOff_keep _ _ _ _ ho hm
  · intro i hm
    exact and_maskOff_keep _ _ _ _ hl hm
  · intro i hm
    exact or_keep _ _ _ hm
  · intro j h1 h2
    show ((w.device.c_cc.set K.VMIN 0).set K.VTIME 1)[j]? = w.device.c_cc[j]?
    rw [List.getElem?_set_ne (Ne.symm h2), List.getElem?_set_ne (Ne.symm h1)]
  · show ((w.device.c_cc.set K.VMIN 0).set K.VTIME 1).length = w.device.c_cc.length
    rw [List.length_set, List.length_set]

/-- C10 at a concrete input: a cooked Linux terminal, every call succeeding. -/
theorem enableRawMode_changes_only_named_places_witness :
    ∃ w1, enableRawMode linux (Env.allOk fun _ => .byte 113) (World.start cooked) = .next w1 ∧
      w1.orig_attr = (World.start cooked).device ∧ w1.device = raw_attr linux w1.orig_attr ∧
      (∀ i, (linux.IXON ||| linux.ICRNL ||| linux.BRKINT ||| linux.ISTRIP |||
          linux.INPCK).testBit i = false →
        w1.device.c_iflag.testBit i = w1.orig_attr.c_iflag.testBit i) ∧
      (∀ i, linux.OPOST.testBit i = false →
        w1.device.c_oflag.testBit i = w1.orig_attr.c_oflag.testBit i) ∧
      (∀ i, (linux.ECHO ||| linux.ICANON ||| linux.ISIG ||| linux.IEXTEN).testBit i = false →
        w1.device.c_lflag.testBit i = w1.orig_attr.c_lflag.testBit i) ∧
      (∀ i, linux.CS8.testBit i = false →
        w1.device.c_cflag.testBit i = w1.orig_attr.c_cflag.testBit i) ∧
      (∀ j, j ≠ linux.VMIN → j ≠ linux.VTIME →
        w1.device.c_cc[j]? = w1.orig_attr.c_cc[j]?) ∧
      w1.device.c_cc.length = w1.orig_attr.c_cc.length ∧
      w1.device.c_ispeed = w1.orig_attr.c_ispeed ∧
      w1.device.c_ospeed = w1.orig_attr.c_ospeed ∧
      w1.device.c_line = w1.orig_attr.c_line :=
  enableRawMode_changes_only_named_places linux (Env.allOk fun _ => .byte 113)
    (World.start cooked) (by decide) rfl rfl

/-! ## One pass through the loop body -/

theorem line_zero : line 0 = "0\r\n" := by decide

theorem loopBody_byte (K : Platform) (E : Env) (w : World) (b : Nat)
    (h : E.readAt w.reads = .byte b) :
    loopBody K E w =
      if toChar b = ('q').toNat then .brk (passed E w) else .again (passed E w) := by
  simp only [loopBody, read, passed, h, printf, line]
  by_cases hc : iscntrl (toChar b) = true <;> simp [hc]

theorem loopBody_zero (K : Platform) (E : Env) (w : World)
    (h : E.readAt w.reads = .zero) :
    loopBody K E w = .again (passed E w) := by
  have hc : iscntrl 0 = true := by decide
  simp [loopBody, read, passed, h, printf, line, hc]

theorem loopBody_fail (K : Platform) (E : Env) (w : World) (e : Nat)
    (h : E.readAt w.reads = .fail e) :
    loopBody K E w =
      if e ≠ K.EAGAIN then
        .exit 1 { w with c := 0, errno := e, reads := w.reads + 1,
                         err := w.err ++ [("read() failed", e)] }
      else .again (passed E w) := by
  have hc : iscntrl 0 = true := by decide
  by_cases he : e = K.EAGAIN
  · simp [loopBody, read, passed, h, printf, line, die, hc, he]
  · simp [loopBody, read, passed, h, printf, line, die, he]

theorem loopBody_of_passes (K : Platform) (E : Env) (w : World)
    (h : (E.readAt w.reads).Passes K) : loopBody K E w = .again (passed E w) := by
  cases hr : E.readAt w.reads with
  | byte b =>
    rw [hr] at h
    rw [loopBody_byte K E w b hr, if_neg h]
  | zero => exact loopBody_zero K E w hr
  | fail e =>
    rw [hr] at h
    have he : e = K.EAGAIN := h
    rw [loopBody_fail K E w e hr]
    simp [he]

theorem passed_reads (E : Env) (w : World) : (passed E w).reads = w.reads + 1 := by
  unfold passed; split <;> rfl

theorem passed_device (E : Env) (w : World) : (passed E w).device = w.device := by
  unfold passed; split <;> rfl

theorem passed_orig_attr (E : Env) (w : World) : (passed E w).orig_attr = w.orig_attr := by
  unfold passed; split <;> rfl

theorem passed_atexitFns (E : Env) (w : World) : (passed E w).atexitFns = w.atexitFns := by
  unfold passed; split <;> rfl

theorem passed_err (E : Env) (w : World) : (passed E w).err = w.err := by
  unfold passed; split <;> rfl

theorem passed_sets (E : Env) (w : World) : (passed E w).sets = w.sets := by
  unfold passed; split <;> rfl

theorem passed_out (E : Env) (w : World) :
    (passed E w).out = w.out ++ [line (E.readAt w.reads).slot] := by
  unfold passed; split <;> rename_i h <;> simp [h, ReadResult.slot]

theorem passed_c (E : Env) (w : World) : (passed E w).c = (E.readAt w.reads).slot := by
  unfold passed; split <;> rename_i h <;> simp [h, ReadResult.slot]

theorem iterate_reads (E : Env) (n : Nat) (w : World) :
    ((passed E)^[n] w).reads = w.reads + n := by
  induction n with
  | zero => rfl
  | succ n ih => rw [Function.iterate_succ_apply', passed_reads, ih]; omega

theorem iterate_device (E : Env) (n : Nat) (w : World) :
    ((passed E)^[n] w).device = w.device := by
  induction n with
  | zero => rfl
  | succ n ih => rw [Function.iterate_succ_apply', passed_device, ih]

theorem iterate_orig_attr (E : Env) (n : Nat) (w : World) :
    ((passed E)^[n] w).orig_attr = w.orig_attr := by
  induction n with
  | zero => rfl
  | succ n ih => rw [Function.iterate_succ_apply', passed_orig_attr, ih]

theorem iterate_atexitFns (E : Env) (n : Nat) (w : World) :
    ((passed E)^[n] w).atexitFns = w.atexitFns := by
  induction n with
  | zero => rfl
  | succ n ih => rw [Function.iterate_succ_apply', passed_atexitFns, ih]

theorem iterate_err (E : Env) (n : Nat) (w : World) :
    ((passed E)^[n] w).err = w.err := by
  induction n with
  | zero => rfl
  | succ n ih => rw [Function.iterate_succ_apply', passed_err, ih]

theorem iterate_sets (E : Env) (n : Nat) (w : World) :
    ((passed E)^[n] w).sets = w.sets := by
  induction n with
  | zero => rfl
  | succ n ih => rw [Function.iterate_succ_apply', passed_sets, ih]

theorem iterate_out (E : Env) (n : Nat) (w : World) :
    ((passed E)^[n] w).out = w.out ++ lines E w.reads n := by
  induction n with
  | zero => simp [lines]
  | succ n ih =>
    rw [Function.iterate_succ_apply', passed_out, ih, iterate_reads]
    simp [lines, List.range_succ]

/-- As long as the reads pass, `n` passes of the loop are `n` applications of
`passed`. -/
theorem whileLoop_passes (K : Platform) (E : Env) (m : Nat) :
    ∀ (n : Nat) (w : World), (∀ i, i < n → (E.readAt (w.reads + i)).Passes K) →
      whileLoop K E (n + m) w = whileLoop K E m ((passed E)^[n] w) := by
  intro n
  induction n with
  | zero => intro w _; simp
  | succ n ih =>
    intro w h
    have h0 : (E.readAt w.reads).Passes K := by simpa using h 0 (Nat.succ_pos n)
    have hstep : n + 1 + m = (n + m) + 1 := by omega
    rw [hstep, whileLoop, loopBody_of_passes K E w h0, Function.iterate_succ_apply]
    apply ih
    intro i hi
    rw [passed_reads]
    have := h (i + 1) (by omega)
    rwa [show w.reads + 1 + i = w.reads + (i + 1) by omega]

theorem whileLoop_all_pass (K : Platform) (E : Env) (n : Nat) (w : World)
    (hp : ∀ i, i < n → (E.readAt (w.reads + i)).Passes K) :
    whileLoop K E n w = .running ((passed E)^[n] w) := by
  have h := whileLoop_passes K E 0 n w hp
  simpa [whileLoop] using h

theorem whileLoop_until_q (K : Platform) (E : Env) (k m : Nat) (w : World)
    (hp : ∀ i, i < k → (E.readAt (w.reads + i)).Passes K)
    (b : Nat) (hq : E.readAt (w.reads + k) = .byte b) (hb : toChar b = ('q').toNat) :
    whileLoop K E (k + (m + 1)) w = .broke ((passed E)^[k + 1] w) := by
  have hr : E.readAt ((passed E)^[k] w).reads = .byte b := by
    rw [iterate_reads]; exact hq
  rw [whileLoop_passes K E (m + 1) k w hp, whileLoop, loopBody_byte K E _ b hr, if_pos hb,
    Function.iterate_succ_apply']

theorem whileLoop_until_fatal (K : Platform) (E : Env) (k m : Nat) (w : World)
    (hp : ∀ i, i < k → (E.readAt (w.reads + i)).Passes K)
    (e : Nat) (hf : E.readAt (w.reads + k) = .fail e) (he : e ≠ K.EAGAIN) :
    whileLoop K E (k + (m + 1)) w =
      .exit 1 { (passed E)^[k] w with
        c := 0, errno := e, reads := ((passed E)^[k] w).reads + 1,
        err := ((passed E)^[k] w).err ++ [("read() failed", e)] } := by
  have hr : E.readAt ((passed E)^[k] w).reads = .fail e := by
    rw [iterate_reads]; exact hf
  rw [whileLoop_passes K E (m + 1) k w hp, whileLoop, loopBody_fail K E _ e hr, if_pos he]

/-- One more pass after `n` passes that left the loop running. -/
theorem whileLoop_succ_of_running (K : Platform) (E : Env) :
    ∀ (n : Nat) (w0 w : World), whileLoop K E n w0 = .running w →
      whileLoop K E (n + 1) w0 = whileLoop K E 1 w := by
  intro n
  induction n with
  | zero =>
    intro w0 w h
    simp only [whileLoop] at h
    cases h
    rfl
  | succ n ih =>
    intro w0 w h
    rw [whileLoop] at h
    rw [whileLoop]
    cases hb : loopBody K E w0 with
    | again w1 =>
      rw [hb] at h
      simp only at h ⊢
      exact ih w1 w h
    | brk w1 => rw [hb] at h; cases h
    | exit s w1 => rw [hb] at h; cases h

theorem main_of_entered (K : Platform) (E : Env) (fuel : Nat) (w : World)
    (hget : E.tcgetattrErr = none) (hset : E.tcsetattrErr w.sets = none) :
    main K E fuel w =
      match whileLoop K E fuel (entered K w) with
      | .running w => .running w
      | .exit s w => .exit s w
      | .broke w => .exit 0 (atexit .disableRawMode w) := by
  rw [main, enableRawMode_ok K E w hget hset]
  rfl

/-! ## Whole runs from process start -/

theorem kilo_all_pass (K : Platform) (E : Env) (dev : Termios) (fuel : Nat)
    (hget : E.tcgetattrErr = none) (hset : E.tcsetattrErr 0 = none)
    (hp : ∀ i, i < fuel → (E.readAt i).Passes K) :
    kilo K E fuel (World.start dev) =
      .running ((passed E)^[fuel] (entered K (World.start dev))) := by
  have hp1 : ∀ i, i < fuel →
      (E.readAt ((entered K (World.start dev)).reads + i)).Passes K := by
    intro i hi
    have : (entered K (World.start dev)).reads + i = i := Nat.zero_add i
    rw [this]; exact hp i hi
  rw [kilo, main_of_entered K E fuel _ hget hset, whileLoop_all_pass K E fuel _ hp1]

theorem kilo_until_fatal (K : Platform) (E : Env) (dev : Termios) (n fuel e : Nat)
    (hget : E.tcgetattrErr = none) (hset : E.tcsetattrErr 0 = none)
    (hp : ∀ i, i < n → (E.readAt i).Passes K)
    (hf : E.readAt n = .fail e) (he : e ≠ K.EAGAIN) (hfuel : n < fuel) :
    kilo K E fuel (World.start dev) =
      .ended 1 { (passed E)^[n] (entered K (World.start dev)) with
        c := 0, errno := e,
        reads := ((passed E)^[n] (entered K (World.start dev))).reads + 1,
        err := ((passed E)^[n] (entered K (World.start dev))).err
                 ++ [("read() failed", e)] } := by
  have h0 : ∀ i, (entered K (World.start dev)).reads + i = i := fun i => Nat.zero_add i
  have hp1 : ∀ i, i < n →
      (E.readAt ((entered K (World.start dev)).reads + i)).Passes K := by
    intro i hi; rw [h0]; exact hp i hi
  have hf1 : E.readAt ((entered K (World.start dev)).reads + n) = .fail e := by
    rw [h0]; exact hf
  obtain ⟨m, rfl⟩ : ∃ m, fuel = n + (m + 1) := ⟨fuel - n - 1, by omega⟩
  rw [kilo, main_of_entered K E _ _ hget hset,
    whileLoop_until_fatal K E n m _ hp1 e hf1 he]
  simp only [iterate_atexitFns]
  rfl

theorem main_until_q (K : Platform) (E : Env) (dev : Termios) (k fuel b : Nat)
    (hget : E.tcgetattrErr = none) (hset : E.tcsetattrErr 0 = none)
    (hp : ∀ i, i < k → (E.readAt i).Passes K)
    (hq : E.readAt k = .byte b) (hb : toChar b = ('q').toNat) (hfuel : k < fuel) :
    main K E fuel (World.start dev) =
      .exit 0 (atexit .disableRawMode ((passed E)^[k + 1] (entered K (World.start dev)))) := by
  have h0 : ∀ i, (entered K (World.start dev)).reads + i = i := fun i => Nat.zero_add i
  have hp1 : ∀ i, i < k →
      (E.readAt ((entered K (World.start dev)).reads + i)).Passes K := by
    intro i hi; rw [h0]; exact hp i hi
  have hq1 : E.readAt ((entered K (World.start dev)).reads + k) = .byte b := by
    rw [h0]; exact hq
  obtain ⟨m, rfl⟩ : ∃ m, fuel = k + (m + 1) := ⟨fuel - k - 1, by omega⟩
  rw [main_of_entered K E _ _ hget hset, whileLoop_until_q K E k m _ hp1 b hq1 hb]

/-- After the sentinel, with the restoring `tcsetattr` succeeding, the process
ends with code 0 and the device holds the attribute set it started with. -/
theorem kilo_until_q (K : Platform) (E : Env) (dev : Termios) (k fuel b : Nat)
    (hget : E.tcgetattrErr = none) (hset : E.tcsetattrErr 0 = none)
    (hrestore : E.tcsetattrErr 1 = none)
    (hp : ∀ i, i < k → (E.readAt i).Passes K)
    (hq : E.readAt k = .byte b) (hb : toChar b = ('q').toNat) (hfuel : k < fuel) :
    kilo K E fuel (World.start dev) =
      .ended 0 { (passed E)^[k + 1] (entered K (World.start dev)) with
        device := dev, sets := 2 } := by
  rw [kilo, main_until_q K E dev k fuel b hget hset hp hq hb hfuel]
  have hs : ((passed E)^[k + 1] (entered K (World.start dev))).sets = 1 := by
    rw [iterate_sets]; rfl
  have ho : ((passed E)^[k + 1] (entered K (World.start dev))).orig_attr = dev := by
    rw [iterate_orig_attr]; rfl
  have ha : ((passed E)^[k + 1] (entered K (World.start dev))).atexitFns = [] := by
    rw [iterate_atexitFns]; rfl
  simp only [atexit, runAtexit, disableRawMode, tcsetattr, hs, ho, ha, hrestore]

/-! ## Claims about the input loop -/

/-- C9: if `tcgetattr` fails at startup, the process reports
"tcgetattr() failed" and ends with exit code 1; no `tcsetattr` call was made
(the device keeps its attributes), nothing was read and no line was
printed. -/
theorem tcgetattr_failure_is_fatal (K : Platform) (E : Env) (dev : Termios)
    (e fuel : Nat) (h : E.tcgetattrErr = some e) :
    ∃ w, kilo K E fuel (World.start dev) = .ended 1 w ∧
      w.err = [("tcgetattr() failed", e)] ∧
      w.sets = 0 ∧ w.device = dev ∧ w.reads = 0 ∧ w.out = [] := by
  refine ⟨{ World.start dev with errno := e, err := [("tcgetattr() failed", e)] },
    ?_, rfl, rfl, rfl, rfl, rfl⟩
  simp [kilo, main, enableRawMode, tcgetattr, h, die, World.start, runAtexit]

/-- C9 at a concrete input: standard input is not a terminal (ENOTTY = 25). -/
theorem tcgetattr_failure_is_fatal_witness :
    ∃ w, kilo linux ⟨some 25, fun _ => none, fun _ => .byte 104⟩ 7 (World.start cooked)
        = .ended 1 w ∧
      w.err = [("tcgetattr() failed", 25)] ∧
      w.sets = 0 ∧ w.device = cooked ∧ w.reads = 0 ∧ w.out = [] :=
  tcgetattr_failure_is_fatal linux ⟨some 25, fun _ => none, fun _ => .byte 104⟩ cooked 25 7 rfl

/-- C8: in every pass of the loop in which the read delivers zero bytes the
line reported is exactly "0\r\n", whatever the byte slot and the rest of the
world held before (in particular whatever was read in earlier passes): this
holds for the body started in any world, and so after any number of earlier
passes of the loop. -/
theorem zero_read_reports_null (K : Platform) (E : Env) (w : World)
    (h : E.readAt w.reads = .zero) :
    loopBody K E w =
        .again { w with c := 0, reads := w.reads + 1, out := w.out ++ ["0\r\n"] } ∧
    ∀ (n : Nat) (w0 : World), whileLoop K E n w0 = .running w →
      whileLoop K E (n + 1) w0 =
        .running { w with c := 0, reads := w.reads + 1, out := w.out ++ ["0\r\n"] } := by
  have hb : loopBody K E w =
      .again { w with c := 0, reads := w.reads + 1, out := w.out ++ ["0\r\n"] } := by
    rw [loopBody_zero K E w h, passed, h, line_zero]
  refine ⟨hb, ?_⟩
  intro n w0 hrun
  rw [whileLoop_succ_of_running K E n w0 w hrun, whileLoop, hb]
  rfl

/-- C8 at a concrete input: the byte `h` was read in the pass before, and the
second read of the run times out. -/
theorem zero_read_reports_null_witness :
    loopBody linux (Env.allOk (delivering [104] .zero))
        { entered linux (World.start cooked) with
          c := 104, reads := 1, out := ["104 ('h')\r\n"] } =
      .again { entered linux (World.start cooked) with
        c := 0, reads := 2, out := ["104 ('h')\r\n", "0\r\n"] } ∧
    whileLoop linux (Env.allOk (delivering [104] .zero)) 2 (entered linux (World.start cooked)) =
      .running { entered linux (World.start cooked) with
        c := 0, reads := 2, out := ["104 ('h')\r\n", "0\r\n"] } :=
  ⟨(zero_read_reports_null linux (Env.allOk (delivering [104] .zero))
      { entered linux (World.start cooked) with
        c := 104, reads := 1, out := ["104 ('h')\r\n"] } rfl).1,
   (zero_read_reports_null linux (Env.allOk (delivering [104] .zero))
      { entered linux (World.start cooked) with
        c := 104, reads := 1, out := ["104 ('h')\r\n"] } rfl).2 1
      (entered linux (World.start cooked)) (by decide)⟩

/-- C4, as the spec states it, fails: with every call succeeding and every
read returning zero bytes, the process never ends, with any exit code. -/
theorem stream_end_never_exits :
    ¬ ∃ fuel code w,
      kilo linux (Env.allOk fun _ => .zero) fuel (World.start cooked) = .ended code w := by
  rintro ⟨fuel, code, w, h⟩
  rw [kilo_all_pass linux (Env.allOk fun _ => .zero) cooked fuel rfl rfl
    (fun _ _ => trivial)] at h
  cases h

/-- C4, amended: when every read from the `N`-th on returns zero bytes, and
before that no read delivered `q` or failed fatally, the loop does not
terminate: after any number `fuel` of passes the process is still inside the
loop, has made `fuel` reads and printed `fuel` lines, and the line of every
read from the `N`-th on is "0\r\n". -/
theorem stream_end_keeps_looping (K : Platform) (E : Env) (dev : Termios) (N fuel : Nat)
    (hget : E.tcgetattrErr = none) (hset : E.tcsetattrErr 0 = none)
    (hp : ∀ i, i < N → (E.readAt i).Passes K)
    (hz : ∀ i, N ≤ i → E.readAt i = .zero) :
    ∃ w, kilo K E fuel (World.start dev) = .running w ∧
      w.reads = fuel ∧ w.out.length = fuel ∧
      ∀ i, N ≤ i → i < fuel → w.out[i]? = some "0\r\n" := by
  have hall : ∀ i, i < fuel → (E.readAt i).Passes K := by
    intro i _
    by_cases hi : i < N
    · exact hp i hi
    · rw [hz i (Nat.le_of_not_lt hi)]; trivial
  refine ⟨_, kilo_all_pass K E dev fuel hget hset hall, ?_, ?_, ?_⟩
  · rw [iterate_reads]; exact Nat.zero_add fuel
  · rw [iterate_out]; simp [lines, entered, World.start]
  · intro i hN hi
    rw [iterate_out]
    simp [lines, entered, World.start, hi, hz i hN, ReadResult.slot, line_zero]

/-- C4, amended, at a concrete input: `h`, a timeout reported as EAGAIN, then
end of input; still looping after five passes. -/
theorem stream_end_keeps_looping_witness :
    ∃ w, kilo linux ⟨none, fun _ => none,
          fun i => if i = 0 then .byte 104 else if i = 1 then .fail 11 else .zero⟩
        5 (World.start cooked) = .running w ∧
      w.reads = 5 ∧ w.out.length = 5 ∧
      ∀ i, 2 ≤ i → i < 5 → w.out[i]? = some "0\r\n" :=
  stream_end_keeps_looping linux ⟨none, fun _ => none,
      fun i => if i = 0 then .byte 104 else if i = 1 then .fail 11 else .zero⟩
    cooked 2 5 rfl rfl
    (by intro i hi
        have : i = 0 ∨ i = 1 := by omega
        rcases this with rfl | rfl <;> decide)
    (by intro i hi
        have h0 : i ≠ 0 := by omega
        have h1 : i ≠ 1 := by omega
        simp [h0, h1])

/-- C7: a pass of the loop body ends in `exit` if and only if the read
returned -1 with `errno` other than EAGAIN; then "read() failed" is reported,
the status is 1, no line is printed and the loop does not read again, and a
run from process start ends with exit code 1; a read that returns -1 with
`errno = EAGAIN` gives the same pass as a zero-byte read (the line "0\r\n",
the loop goes on), the worlds differing in `errno` alone. -/
theorem read_failure_fatal_iff_not_eagain (K : Platform) (E : Env) (w : World) :
    ((∃ s w1, loopBody K E w = .exit s w1) ↔
      ∃ e, E.readAt w.reads = .fail e ∧ e ≠ K.EAGAIN) ∧
    (∀ e, E.readAt w.reads = .fail e → e ≠ K.EAGAIN →
      ∃ w1, loopBody K E w = .exit 1 w1 ∧
        w1.err = w.err ++ [("read() failed", e)] ∧
        w1.out = w.out ∧ w1.reads = w.reads + 1 ∧
        ∀ fuel, whileLoop K E (fuel + 1) w = .exit 1 w1) ∧
    (∀ (dev : Termios) (n fuel e : Nat),
      E.tcgetattrErr = none → E.tcsetattrErr 0 = none →
      (∀ i, i < n → (E.readAt i).Passes K) →
      E.readAt n = .fail e → e ≠ K.EAGAIN → n < fuel →
      ∃ w1, kilo K E fuel (World.start dev) = .ended 1 w1 ∧
        w1.err = [("read() failed", e)] ∧ w1.reads = n + 1 ∧ w1.out.length = n) ∧
    (E.readAt w.reads = .fail K.EAGAIN →
      ∀ E0 : Env, E0.readAt w.reads = .zero →
        ∃ w1 w2, loopBody K E w = .again w1 ∧ loopBody K E0 w = .again w2 ∧
          w1 = { w2 with errno := K.EAGAIN } ∧
          w1.out = w.out ++ ["0\r\n"] ∧ w2.out = w.out ++ ["0\r\n"]) := by
  refine ⟨⟨?_, ?_⟩, ?_, ?_, ?_⟩
  · rintro ⟨s, w1, h⟩
    cases hr : E.readAt w.reads with
    | byte b =>
      rw [loopBody_byte K E w b hr] at h
      split at h <;> cases h
    | zero =>
      rw [loopBody_zero K E w hr] at h
      cases h
    | fail e =>
      refine ⟨e, rfl, ?_⟩
      intro he
      rw [loopBody_fail K E w e hr] at h
      simp [he] at h
  · rintro ⟨e, hr, he⟩
    rw [loopBody_fail K E w e hr, if_pos he]
    exact ⟨_, _, rfl⟩
  · intro e hr he
    have hb := loopBody_fail K E w e hr
    rw [if_pos he] at hb
    refine ⟨_, hb, rfl, rfl, rfl, ?_⟩
    intro fuel
    rw [whileLoop, hb]
  · intro dev n fuel e hget hset hp hf he hfuel
    refine ⟨_, kilo_until_fatal K E dev n fuel e hget hset hp hf he hfuel, ?_, ?_, ?_⟩
    · simp only [iterate_err]; rfl
    · simp only [iterate_reads]; simp [entered, World.start]
    · simp only [iterate_out]; simp [lines, entered, World.start]
  · intro hr E0 hz
    have h1 := loopBody_fail K E w K.EAGAIN hr
    rw [if_neg (by simp)] at h1
    have h2 := loopBody_zero K E0 w hz
    refine ⟨_, _, h1, h2, ?_, ?_, ?_⟩
    · simp [passed, hr, hz]
    · simp [passed, hr, line_zero]
    · simp [passed, hz, line_zero]

/-- C7 at concrete inputs: EIO (5) on the third read of a run ends the
process with code 1 after two lines; EAGAIN (11) is reported as "0\r\n". -/
theorem read_failure_fatal_iff_not_eagain_witness :
    (∃ w1, kilo linux (Env.allOk (delivering [104, 105] (.fail 5))) 9 (World.start cooked)
        = .ended 1 w1 ∧
      w1.err = [("read() failed", 5)] ∧ w1.reads = 2 + 1 ∧ w1.out.length = 2) ∧
    (∃ w1 w2,
      loopBody linux (Env.allOk fun _ => .fail 11) (World.start cooked) = .again w1 ∧
      loopBody linux (Env.allOk fun _ => .zero) (World.start cooked) = .again w2 ∧
      w1 = { w2 with errno := linux.EAGAIN } ∧
      w1.out = (World.start cooked).out ++ ["0\r\n"] ∧
      w2.out = (World.start cooked).out ++ ["0\r\n"]) :=
  ⟨(read_failure_fatal_iff_not_eagain linux (Env.allOk (delivering [104, 105] (.fail 5)))
      (World.start cooked)).2.2.1 cooked 2 9 5 rfl rfl
      (by intro i hi
          have : i = 0 ∨ i = 1 := by omega
          rcases this with rfl | rfl <;> decide)
      rfl (by decide) (by decide),
   (read_failure_fatal_iff_not_eagain linux (Env.allOk fun _ => .fail 11)
      (World.start cooked)).2.2.2 rfl (Env.allOk fun _ => .zero) rfl⟩

/-! ## The reported lines -/

theorem toChar_ascii (b : Nat) (hb : b ≤ 127) : toChar b = (b : Int) := by
  unfold toChar
  have h1 : b % 256 = b := Nat.mod_eq_of_lt (by omega)
  rw [h1, if_pos (by omega)]

theorem line_ascii (b : Nat) (hb : b ≤ 127) : line (toChar b) = specLine b := by
  interval_cases b <;> decide

theorem format_control (c : Int) :
    format "%d\r\n".toList [c] = (toString c).toList ++ ['\r', '\n'] := rfl

theorem format_printable (c : Int) :
    format "%d ('%c')\r\n".toList [c, c] =
      (toString c).toList ++ [' ', '(', Char.ofNat 39, Char.ofNat (c % 256).toNat,
        Char.ofNat 39, ')', '\r', '\n'] := rfl

theorem line_suffix (c : Int) : List.IsSuffix ['\r', '\n'] (line c).data := by
  unfold line
  split
  · rw [format_control]; exact List.suffix_append _ _
  · rw [format_printable]
    exact ⟨(toString c).toList ++ [' ', '(', Char.ofNat 39, Char.ofNat (c % 256).toNat,
      Char.ofNat 39, ')'], by simp⟩

/-- A pass that does not end in `exit` leaves the world `passed`. -/
theorem loopBody_printed (K : Platform) (E : Env) (w w1 : World)
    (h : loopBody K E w = .again w1 ∨ loopBody K E w = .brk w1) : w1 = passed E w := by
  cases hr : E.readAt w.reads with
  | byte b =>
    rw [loopBody_byte K E w b hr] at h
    split at h <;> rcases h with h | h <;> cases h <;> rfl
  | zero =>
    rw [loopBody_zero K E w hr] at h
    rcases h with h | h <;> cases h; rfl
  | fail e =>
    rw [loopBody_fail K E w e hr] at h
    split at h <;> rcases h with h | h <;> cases h; rfl

theorem lines_of_bytes (E : Env) (bs : List Nat) (hascii : ∀ b, b ∈ bs → b ≤ 127) :
    ∀ n, n ≤ bs.length → (∀ i b, i < n → bs[i]? = some b → E.readAt i = .byte b) →
      lines E 0 n = (bs.take n).map specLine := by
  intro n
  induction n with
  | zero => intro _ _; simp [lines]
  | succ n ih =>
    intro hn hreads
    have hlt : n < bs.length := hn
    have hget : bs[n]? = some bs[n] := List.getElem?_eq_getElem hlt
    have hr : E.readAt n = .byte bs[n] := hreads n bs[n] (Nat.lt_succ_self n) hget
    have hb : bs[n] ≤ 127 := hascii _ (List.getElem_mem hlt)
    have ih1 := ih (Nat.le_of_lt hlt) (fun i b hi => hreads i b (Nat.lt_succ_of_lt hi))
    have hl : lines E 0 (n + 1) = lines E 0 n ++ [line (E.readAt n).slot] := by
      simp [lines, List.range_succ]
    rw [hl, ih1, List.take_succ, hget, hr, List.map_append]
    show _ ++ [line (toChar bs[n])] = _ ++ [specLine bs[n]]
    rw [line_ascii _ hb]

/-- C6: for every byte `b` from 0 to 127 delivered by a read, the pass prints
exactly one line, the text `specLine b`: the decimal code and CR LF when `b`
is a control byte, otherwise the decimal code, a space, and the quoted
character in parentheses, then CR LF; the loop goes on unless `b` is `q`; and
every line any pass prints ends with CR LF. -/
theorem byte_is_reported_in_spec_form (K : Platform) (E : Env) (w : World) (b : Nat)
    (hb : b ≤ 127) (hr : E.readAt w.reads = .byte b) :
    (∃ w1, loopBody K E w = (if b = 113 then .brk w1 else .again w1) ∧
      w1.out = w.out ++ [specLine b] ∧ w1.reads = w.reads + 1) ∧
    (∀ (E0 : Env) (w0 w1 : World),
      loopBody K E0 w0 = .again w1 ∨ loopBody K E0 w0 = .brk w1 →
      ∃ l, w1.out = w0.out ++ [l] ∧ List.IsSuffix ['\r', '\n'] l.data) := by
  constructor
  · refine ⟨passed E w, ?_, ?_, passed_reads E w⟩
    · rw [loopBody_byte K E w b hr, toChar_ascii b hb]
      by_cases hq : b = 113
      · simp [hq]
      · have : ¬ ((b : Int) = (('q').toNat : Int)) := by
          intro h
          exact hq (by exact_mod_cast h)
        rw [if_neg this, if_neg hq]
    · rw [passed_out, hr]
      show w.out ++ [line (toChar b)] = _
      rw [line_ascii b hb]
  · intro E0 w0 w1 h
    rw [loopBody_printed K E0 w0 w1 h, passed_out]
    exact ⟨_, rfl, line_suffix _⟩

/-- C6 at a concrete input: the end-of-transmission byte 4 gives the single
line "4\r\n" and the loop goes round again. -/
theorem byte_is_reported_in_spec_form_witness :
    (∃ w1, loopBody linux (Env.allOk (delivering [4] .zero)) (entered linux (World.start cooked))
        = (if 4 = 113 then .brk w1 else .again w1) ∧
      w1.out = (entered linux (World.start cooked)).out ++ [specLine 4] ∧
      w1.reads = (entered linux (World.start cooked)).reads + 1) ∧
    specLine 4 = "4\r\n" ∧
    loopBody linux (Env.allOk (delivering [4] .zero)) (entered linux (World.start cooked)) =
      .again { entered linux (World.start cooked) with c := 4, reads := 1, out := ["4\r\n"] } :=
  ⟨(byte_is_reported_in_spec_form linux (Env.allOk (delivering [4] .zero))
      (entered linux (World.start cooked)) 4 (by decide) rfl).1, by decide, by decide⟩

/-- C5: when the reads deliver the ASCII bytes `bs` one per call and the
first `q` of `bs` is at index `k`, `main` makes exactly `k + 1` reads, prints
exactly the `k + 1` lines of the first `k + 1` bytes in order, reports no
error, registers the restore function and returns 0; nothing is assumed about
(and nothing is read of) what follows the `q`.  With the restoring `tcsetattr`
succeeding, the process ends with exit code 0. -/
theorem loop_stops_at_first_q (K : Platform) (E : Env) (dev : Termios)
    (bs : List Nat) (k fuel : Nat)
    (hget : E.tcgetattrErr = none) (hset : E.tcsetattrErr 0 = none)
    (hascii : ∀ b, b ∈ bs → b ≤ 127)
    (hk : bs[k]? = some 113) (hfirst : ∀ j, j < k → bs[j]? ≠ some 113)
    (hreads : ∀ i b, i ≤ k → bs[i]? = some b → E.readAt i = .byte b)
    (hfuel : k < fuel) :
    ∃ w, main K E fuel (World.start dev) = .exit 0 w ∧
      w.reads = k + 1 ∧
      w.out = (bs.take (k + 1)).map specLine ∧ w.out.length = k + 1 ∧
      w.err = [] ∧ w.atexitFns = [.disableRawMode] ∧
      (E.tcsetattrErr 1 = none →
        ∃ w2, kilo K E fuel (World.start dev) = .ended 0 w2 ∧
          w2.reads = k + 1 ∧ w2.out = w.out) := by
  have hklt : k < bs.length := by
    rcases Nat.lt_or_ge k bs.length with h | h
    · exact h
    · rw [List.getElem?_eq_none h] at hk; cases hk
  have hp : ∀ i, i < k → (E.readAt i).Passes K := by
    intro i hi
    have hil : i < bs.length := Nat.lt_trans hi hklt
    have hg : bs[i]? = some bs[i] := List.getElem?_eq_getElem hil
    have hbi : bs[i] ≤ 127 := hascii _ (List.getElem_mem hil)
    have hne : bs[i] ≠ 113 := by
      intro h
      exact hfirst i hi (by rw [hg, h])
    rw [hreads i bs[i] (Nat.le_of_lt hi) hg]
    show toChar bs[i] ≠ (('q').toNat : Int)
    rw [toChar_ascii _ hbi]
    intro h
    exact hne (by exact_mod_cast h)
  have hq : E.readAt k = .byte 113 := hreads k 113 (Nat.le_refl k) hk
  have hb : toChar 113 = (('q').toNat : Int) := by decide
  have hout : ((passed E)^[k + 1] (entered K (World.start dev))).out
      = (bs.take (k + 1)).map specLine := by
    rw [iterate_out]
    show [] ++ lines E 0 (k + 1) = _
    rw [List.nil_append]
    exact lines_of_bytes E bs hascii (k + 1) hklt
      (fun i b hi => hreads i b (Nat.le_of_lt_succ hi))
  have hreadsN : ((passed E)^[k + 1] (entered K (World.start dev))).reads = k + 1 := by
    rw [iterate_reads]; exact Nat.zero_add _
  refine ⟨_, main_until_q K E dev k fuel 113 hget hset hp hq hb hfuel, hreadsN, hout, ?_, ?_, ?_, ?_⟩
  · show ((passed E)^[k + 1] (entered K (World.start dev))).out.length = k + 1
    rw [hout, List.length_map, List.length_take]
    omega
  · show ((passed E)^[k + 1] (entered K (World.start dev))).err = []
    rw [iterate_err]; rfl
  · show Handler.disableRawMode ::
      ((passed E)^[k + 1] (entered K (World.start dev))).atexitFns = _
    rw [iterate_atexitFns]; rfl
  · intro hrestore
    exact ⟨_, kilo_until_q K E dev k fuel 113 hget hset hrestore hp hq hb hfuel, hreadsN, rfl⟩

/-- C5 at the input of the specification: `h`, `i`, `q`, `u`. -/
theorem loop_stops_at_first_q_witness :
    (∃ w, main linux (Env.allOk (delivering [104, 105, 113, 117] .zero)) 8 (World.start cooked)
        = .exit 0 w ∧
      w.reads = 2 + 1 ∧
      w.out = ([104, 105, 113, 117].take (2 + 1)).map specLine ∧ w.out.length = 2 + 1 ∧
      w.err = [] ∧ w.atexitFns = [.disableRawMode] ∧
      ((Env.allOk (delivering [104, 105, 113, 117] .zero)).tcsetattrErr 1 = none →
        ∃ w2, kilo linux (Env.allOk (delivering [104, 105, 113, 117] .zero)) 8
            (World.start cooked) = .ended 0 w2 ∧
          w2.reads = 2 + 1 ∧ w2.out = w.out)) ∧
    ([104, 105, 113, 117].take (2 + 1)).map specLine =
      ["104 ('h')\r\n", "105 ('i')\r\n", "113 ('q')\r\n"] :=
  ⟨loop_stops_at_first_q linux (Env.allOk (delivering [104, 105, 113, 117] .zero)) cooked
      [104, 105, 113, 117] 2 8 rfl rfl (by decide) rfl
      (by intro j hj
          have : j = 0 ∨ j = 1 := by omega
          rcases this with rfl | rfl <;> decide)
      (by intro i b hi hb
          have : i = 0 ∨ i = 1 ∨ i = 2 := by omega
          rcases this with rfl | rfl | rfl <;> cases hb <;> rfl)
      (by decide),
   by decide⟩

/-! ## Restoring the terminal -/

/-- C3: a successful `enableRawMode` followed by a successful
`disableRawMode` leaves the device with exactly the attribute set captured
before entry (equality of the whole `struct termios`: the flag words, `c_cc`
and the speeds), and this is the device state when a run ends on the sentinel
`q` and the restoring `tcsetattr` succeeds. -/
theorem restore_returns_captured_set (K : Platform) (E : Env)
    (hget : E.tcgetattrErr = none) :
    (∀ w : World, E.tcsetattrErr w.sets = none → E.tcsetattrErr (w.sets + 1) = none →
      ∃ w1 w2, enableRawMode K E w = .next w1 ∧ disableRawMode E w1 = .next w2 ∧
        w1.orig_attr = w.device ∧ w2.device = w.device) ∧
    (∀ (dev : Termios) (k fuel b : Nat),
      E.tcsetattrErr 0 = none → E.tcsetattrErr 1 = none →
      (∀ i, i < k → (E.readAt i).Passes K) →
      E.readAt k = .byte b → toChar b = ('q').toNat → k < fuel →
      ∃ w, kilo K E fuel (World.start dev) = .ended 0 w ∧ w.device = dev ∧
        w.reads = k + 1) := by
  constructor
  · intro w hset hrestore
    refine ⟨_, { w with orig_attr := w.device, sets := w.sets + 1 + 1 },
      enableRawMode_ok K E w hget hset, ?_, rfl, rfl⟩
    simp only [disableRawMode, tcsetattr, hrestore]
  · intro dev k fuel b hset hrestore hp hq hb hfuel
    refine ⟨_, kilo_until_q K E dev k fuel b hget hset hrestore hp hq hb hfuel, rfl, ?_⟩
    show ((passed E)^[k + 1] (entered K (World.start dev))).reads = k + 1
    rw [iterate_reads]; exact Nat.zero_add _

/-- C3 at concrete inputs: a cooked Linux terminal; entry then restoration,
and the run on `h`, `i`, `q`, `u`. -/
theorem restore_returns_captured_set_witness :
    (∃ w1 w2,
      enableRawMode linux (Env.allOk (delivering [104, 105, 113, 117] .zero))
        (World.start cooked) = .next w1 ∧
      disableRawMode (Env.allOk (delivering [104, 105, 113, 117] .zero)) w1 = .next w2 ∧
      w1.orig_attr = (World.start cooked).device ∧
      w2.device = (World.start cooked).device) ∧
    (∃ w, kilo linux (Env.allOk (delivering [104, 105, 113, 117] .zero)) 8
        (World.start cooked) = .ended 0 w ∧ w.device = cooked ∧ w.reads = 2 + 1) :=
  ⟨(restore_returns_captured_set linux (Env.allOk (delivering [104, 105, 113, 117] .zero))
      rfl).1 (World.start cooked) rfl rfl,
   (restore_returns_captured_set linux (Env.allOk (delivering [104, 105, 113, 117] .zero))
      rfl).2 cooked 2 8 113 rfl rfl
      (by intro i hi
          have : i = 0 ∨ i = 1 := by omega
          rcases this with rfl | rfl <;> decide)
      rfl (by decide) (by decide)⟩

/-- C2 fails on the code: on a cooked Linux terminal, with `h` read and then
a read failing with EIO (5), the process ends with code 1 after a single
`tcsetattr` call (the one of `enableRawMode`); no function was registered with
`atexit` when `exit` ran, and the device is left holding the raw attribute
set, which differs from the set captured at entry. -/
theorem fatal_read_leaves_raw_mode :
    ∃ w, kilo linux (Env.allOk (delivering [104] (.fail 5))) 6 (World.start cooked) =
        .ended 1 w ∧
      w.err = [("read() failed", 5)] ∧ w.out = ["104 ('h')\r\n"] ∧ w.reads = 2 ∧
      w.sets = 1 ∧ w.atexitFns = [] ∧
      w.orig_attr = cooked ∧ w.device = raw_attr linux cooked ∧ w.device ≠ cooked := by
  refine ⟨{ entered linux (World.start cooked) with
    c := 0, errno := 5, reads := 2, out := ["104 ('h')\r\n"],
    err := [("read() failed", 5)] }, ?_⟩
  decide

end Kilo
